import Mathlib

/-!
# Verification of the minimeili task-notification registry

Shallow embedding of `src/task_manager.rs` and the parts of `src/task.rs`
it depends on. The Rust code stores, behind a mutex, a `HashMap<u64, TaskTicket>`
where each `TaskTicket` owns the sender side of a `tokio::sync::watch`
channel with value type `Option<Task>`. We model:

* `Task`, `TaskStatus`, `TaskRef` and the `AsTaskUid` conversions from
  `src/task.rs` (u64 becomes `Nat`; `DateTime` is `String` in `src/lib.rs`).
* a watch channel as a `Chan` record: its latest value, whether the sender
  is still alive (the sender is dropped exactly when the owning ticket is
  removed from the map), and how many receivers are currently attached.
  Tokio's `watch::Sender::send` fails, leaving the stored value unchanged,
  when no receiver exists; `watch::Receiver::wait_for` first checks the
  predicate on the current value (so it succeeds even after the sender was
  dropped) and errors only when the channel is closed and the current value
  fails the predicate.
* the registry state `MgrState` as an arena of channels plus an association
  list from task uid to channel index; channels stay in the arena after the
  map entry is removed because receivers (promises) outlive the entry.
* `handle_task` (the `report` operation), `subscribe_for_task`, and the
  observable outcome of `TaskPromise::wait` / `wait_with_timeout`.

All mutex-serialised operations are modelled as sequential state
transformers, which is faithful because every map mutation in the source
happens inside the single `Mutex` with no await point while it is held.
-/

namespace Minimeili

/-- `TaskStatus` from `src/task.rs`. -/
inductive TaskStatus where
  | Enqueued
  | Processing
  | Succeeded
  | Failed
  | Canceled
deriving DecidableEq, Repr

namespace TaskStatus

/-- `TaskStatus::has_stopped` from `src/task.rs`:
true exactly on `Succeeded`, `Failed`, `Canceled`. -/
def has_stopped : TaskStatus → Bool
  | .Succeeded => true
  | .Failed => true
  | .Canceled => true
  | .Enqueued => false
  | .Processing => false

end TaskStatus

/-- `TaskError` from `src/task.rs`. -/
structure TaskError where
  message : String
  code : String
  type_field : String
  link : String
deriving DecidableEq, Repr

/-- `TaskKind` from `src/task.rs`. `serde_json::Value` in `IndexSwap` and the
`IndexSettings` payload of `SettingsUpdate` are opaque to the registry; we
model both payloads as strings, which preserves equality and is all the
registry ever depends on (it stores and returns whole `Task` values). -/
inductive TaskKind where
  | IndexCreation (primary_key : Option String)
  | IndexUpdate (primary_key : Option String)
  | IndexDeletion (deleted_documents : Option Int)
  | IndexSwap (swaps : String)
  | DocumentAdditionOrUpdate (received_documents : Nat) (indexed_documents : Option Nat)
  | DocumentDeletion (provided_ids : Nat) (original_filter : Option String)
      (deleted_documents : Nat)
  | SettingsUpdate (settings : String)
  | DumpCreation (dump_uid : Int)
  | TaskCancelation (matched_tasks : Int) (canceled_tasks : Int)
      (original_filter : Option String)
  | TaskDeletion (matched_tasks : Nat) (deleted_tasks : Nat)
      (original_filter : Option String)
  | SnapshotCreation
deriving DecidableEq, Repr

/-- `Task` from `src/task.rs`; `DateTime = String` per `src/lib.rs`. -/
structure Task where
  uid : Nat
  index_uid : String
  status : TaskStatus
  kind : TaskKind
  canceled_by : Option Nat
  error : Option TaskError
  duration : Option String
  enqueued_at : String
  started_at : Option String
  finished_at : Option String
deriving DecidableEq, Repr

/-- `TaskKindRef` from `src/task.rs`. -/
inductive TaskKindRef where
  | IndexCreation
  | IndexUpdate
  | IndexDeletion
  | IndexSwap
  | DocumentAdditionOrUpdate
  | DocumentDeletion
  | SettingsUpdate
  | DumpCreation
  | TaskCancelation
  | TaskDeletion
  | SnapshotCreation
deriving DecidableEq, Repr

/-- `TaskRef` from `src/task.rs`. -/
structure TaskRef where
  uid : Nat
  index_uid : String
  status : TaskStatus
  kind : TaskKindRef
  enqueued_at : String
deriving DecidableEq, Repr

/-- The `AsTaskUid` trait from `src/task.rs`. -/
class AsTaskUid (α : Type) where
  as_task_uid : α → Nat

/-- `impl AsTaskUid for u64 { fn as_task_uid(&self) -> u64 { *self } }`. -/
instance : AsTaskUid Nat where
  as_task_uid u := u

/-- `impl AsTaskUid for &Task { fn as_task_uid(&self) -> u64 { self.uid } }`. -/
instance : AsTaskUid Task where
  as_task_uid t := t.uid

/-- `impl AsTaskUid for &TaskRef { fn as_task_uid(&self) -> u64 { self.uid } }`. -/
instance : AsTaskUid TaskRef where
  as_task_uid r := r.uid

/-- `const MAX_TICKETS: usize = 512` from `src/task_manager.rs`. -/
def MAX_TICKETS : Nat := 512

/-- `TaskPromiseError` from `src/task_manager.rs`.
`Timeout { ms: u128 }` carries `dur.as_millis()`. -/
inductive TaskPromiseError where
  | ManagerClosed
  | Timeout (ms : Nat)
deriving DecidableEq, Repr

/-- One `tokio::sync::watch` channel with value type `Option Task`, as owned
by a `TaskTicket`: the latest value, whether the sender half is still alive
(it dies when the ticket is dropped, i.e. removed from the map), and the
number of live receivers (each `TaskPromise` holds one). -/
structure Chan where
  value : Option Task
  senderAlive : Bool
  recvCount : Nat
deriving DecidableEq, Repr

namespace TaskTicket

/-- `TaskTicket::pending`: `watch::channel(None)`, initial receiver dropped. -/
def pending : Chan := ⟨none, true, 0⟩

/-- `TaskTicket::completed(task)`: `watch::channel(Some(task))`, initial
receiver dropped. -/
def completed (t : Task) : Chan := ⟨some t, true, 0⟩

/-- `TaskTicket::complete(task)`: `let _ = self.channel.send(Some(task))`.
Tokio's `watch::Sender::send` updates the stored value only when at least
one receiver is alive; with no receivers it returns `Err` and the value is
left unchanged. The `Err` is discarded (`let _ =`). -/
def complete (c : Chan) (t : Task) : Chan :=
  if 0 < c.recvCount then { c with value := some t } else c

end TaskTicket

/-- A `TaskPromise` is a `watch::Receiver` on one channel; we identify the
channel by its arena index. -/
structure TaskPromise where
  chanId : Nat
deriving DecidableEq, Repr

/-- The state behind `TaskManager`'s mutex: the arena of all channels ever
created (receivers keep a channel observable after its map entry is gone)
and the `HashMap<u64, TaskTicket>` as an association list from uid to the
channel index of the entry's ticket. Key order is irrelevant to the code
(it only takes `len`, `keys().min()`, point lookups and point removals), so
an association list with unique keys is a faithful model. -/
structure MgrState where
  chans : List Chan
  tickets : List (Nat × Nat)
deriving DecidableEq, Repr

/-- `TaskManager::default()`: an empty map (and an empty arena). -/
def MgrState.default : MgrState := ⟨[], []⟩

/-- Point lookup, `HashMap::get` / the `entry` test: the value bound to
key `k`, if any. -/
def lookupKey (k : Nat) : List (Nat × Nat) → Option Nat
  | [] => none
  | (k', v) :: rest => if k' = k then some v else lookupKey k rest

/-- Point update of the arena at index `cid`. -/
def modifyChan (cid : Nat) (f : Chan → Chan) (cs : List Chan) : List Chan :=
  match cs[cid]? with
  | some c => cs.set cid (f c)
  | none => cs

/-- `tickets.keys().copied().min()`: the smallest key of the map,
`none` on an empty map. -/
def minKey : List (Nat × Nat) → Option Nat
  | [] => none
  | (k, _) :: rest =>
    match minKey rest with
    | none => some k
    | some m => some (min k m)

/-- `HashMap::remove(&k)` on the key list: drop the (unique) entry with
key `k`. -/
def eraseKey (k : Nat) : List (Nat × Nat) → List (Nat × Nat)
  | [] => []
  | (k', v) :: rest => if k' = k then rest else (k', v) :: eraseKey k rest

/-- `tickets.remove(&min_key)` in `handle_task`: removing the entry drops
its `TaskTicket` and with it the `watch::Sender`, closing the channel for
any receivers still attached. -/
def removeTicket (k : Nat) (s : MgrState) : MgrState :=
  match lookupKey k s.tickets with
  | some cid =>
    { chans := modifyChan cid (fun c => { c with senderAlive := false }) s.chans,
      tickets := eraseKey k s.tickets }
  | none => s

/-- Lines 93–97 of `src/task_manager.rs`: evict the minimum key whenever the
map already holds `MAX_TICKETS` or more entries, regardless of whether the
incoming uid is present. -/
def evictIfFull (s : MgrState) : MgrState :=
  if MAX_TICKETS ≤ s.tickets.length then
    match minKey s.tickets with
    | some minK => removeTicket minK s
    | none => s
  else s

/-- `TaskManager::handle_task(task)` (the spec's `report`): evict if at
capacity, then `tickets.entry(task.uid)`: on `Vacant` insert
`TaskTicket::completed(task)` (a fresh channel), on `Occupied` call
`complete(task)` (a `watch` send) on the existing ticket. -/
def handle_task (t : Task) (s : MgrState) : MgrState :=
  let s1 := evictIfFull s
  match lookupKey t.uid s1.tickets with
  | none =>
    { chans := s1.chans ++ [TaskTicket.completed t],
      tickets := s1.tickets ++ [(t.uid, s1.chans.length)] }
  | some cid =>
    { s1 with chans := modifyChan cid (fun c => TaskTicket.complete c t) s1.chans }

/-- `TaskManager::subscribe_for_task` for a raw uid: on `Occupied` subscribe
to the existing ticket's channel (one more receiver); on `Vacant` insert
`TaskTicket::pending()` and subscribe to it. Returns the new state and the
`TaskPromise`. Note: no capacity check occurs here in the source. -/
def subscribe_uid (uid : Nat) (s : MgrState) : MgrState × TaskPromise :=
  match lookupKey uid s.tickets with
  | some cid =>
    ({ s with
        chans := modifyChan cid (fun c => { c with recvCount := c.recvCount + 1 }) s.chans },
      ⟨cid⟩)
  | none =>
    let cid := s.chans.length
    ({ chans := s.chans ++ [{ TaskTicket.pending with recvCount := 1 }],
       tickets := s.tickets ++ [(uid, cid)] },
      ⟨cid⟩)

/-- `TaskManager::subscribe_for_task(task_uid: impl AsTaskUid)`: convert via
`as_task_uid`, then operate on the map. -/
def subscribe_for_task {α : Type} [AsTaskUid α] (a : α) (s : MgrState) :
    MgrState × TaskPromise :=
  subscribe_uid (AsTaskUid.as_task_uid a) s

/-- Observable outcome of `TaskPromise::wait` evaluated against a state. -/
inductive WaitResult where
  | resolved (t : Task)
  | closed
  | blocked
deriving DecidableEq, Repr

/-- `TaskPromise::wait` observed at state `s`: `wait_for(|t| t.is_some())`
first tests the current value, so it returns the stored task whenever one
is present — even if the sender has been dropped; it returns the
`ManagerClosed` error when the value is `None` and the sender is gone; and
it stays suspended (`blocked`) when the value is `None` but the sender is
still alive. -/
def waitNow (s : MgrState) (p : TaskPromise) : WaitResult :=
  match s.chans[p.chanId]? with
  | none => .closed
  | some c =>
    match c.value with
    | some t => .resolved t
    | none => if c.senderAlive then .blocked else .closed

/-- Outcome of `TaskPromise::wait` over a time window, given the trace of
states its channel passes through inside the window (the state at the call
followed by one entry per change event). `wait_for` first checks the current
value: a stored task resolves immediately (even if the sender is already
gone); otherwise a closed channel yields the `ManagerClosed` error, and an
open one suspends until the next event. `none` means the window ended with
`wait` still suspended. -/
def waitWithin : List Chan → Option (Except TaskPromiseError Task)
  | [] => none
  | c :: rest =>
    match c.value with
    | some t => some (.ok t)
    | none =>
      if c.senderAlive then waitWithin rest else some (.error .ManagerClosed)

/-- `TaskPromise::wait_with_timeout(dur)`: `tokio::time::timeout(dur, self.wait())`,
where `trace` is the channel trace inside the `dur`-window. `Ok(Ok(task))`
passes the task through, `Ok(Err(err))` passes the wait error through, and
the timer firing first (`Err(_)`) produces `Timeout { ms: dur.as_millis() }`. -/
def wait_with_timeout (trace : List Chan) (durMs : Nat) : Except TaskPromiseError Task :=
  match waitWithin trace with
  | some (.ok task) => .ok task
  | some (.error err) => .error err
  | none => .error (.Timeout durMs)

/-- A sequence of `subscribe_for_task` calls (promises discarded). -/
def subscribeAll (uids : List Nat) (s : MgrState) : MgrState :=
  uids.foldl (fun s u => (subscribe_uid u s).1) s

/-- A sequence of `handle_task` (report) calls. -/
def handleAll (ts : List Task) (s : MgrState) : MgrState :=
  ts.foldl (fun s t => handle_task t s) s

/-- The channel of a pending ticket with exactly one subscriber, as created
by the `Vacant` branch of `subscribe_for_task`. -/
def pendingSubChan : Chan := ⟨none, true, 1⟩

/-- Ticket map after subscribing to the uids `start, start+1, …, start+n-1`
in order, starting from the empty registry: the `i`-th subscription creates
channel `i`. -/
def subSeqTickets (start n : Nat) : List (Nat × Nat) :=
  (List.range n).map (fun i => (start + i, i))

/-- Registry state after subscribing to `start, …, start+n-1` from empty. -/
def subSeqState (start n : Nat) : MgrState :=
  ⟨List.replicate n pendingSubChan, subSeqTickets start n⟩


/-! ### Concrete instances used in counterexamples and witnesses -/

/-- A terminal task with the given uid (like `successful_task` in the
`src/task_manager.rs` tests). -/
def sampleTask (u : Nat) : Task :=
  { uid := u, index_uid := "a", status := .Succeeded,
    kind := .IndexDeletion none, canceled_by := none, error := none,
    duration := none, enqueued_at := "e", started_at := none,
    finished_at := none }

/-- A second terminal task with the same uid but a different payload. -/
def sampleTaskB (u : Nat) : Task :=
  { sampleTask u with index_uid := "b" }

/-- A non-terminal task (`status = Enqueued`, `has_stopped = false`). -/
def enqueuedTask (u : Nat) : Task :=
  { sampleTask u with status := .Enqueued }

/-- Registry after 511 subscriptions to uids `1..511` from empty. -/
def c9s0 : MgrState := subscribeAll (List.range' 1 511) MgrState.default

/-- … then uid 0 reported (`Completed` ticket stored; the map is now full). -/
def c9s1 : MgrState := handle_task (sampleTask 0) c9s0

/-! ### Association-list lemmas -/

theorem lookupKey_append (k : Nat) (l1 l2 : List (Nat × Nat)) :
    lookupKey k (l1 ++ l2) = (lookupKey k l1).orElse (fun _ => lookupKey k l2) := by
  induction l1 with
  | nil => simp [lookupKey]
  | cons p rest ih =>
    obtain ⟨k', v⟩ := p
    by_cases h : k' = k <;> simp [lookupKey, h, ih]

theorem lookupKey_eq_none_iff (k : Nat) (l : List (Nat × Nat)) :
    lookupKey k l = none ↔ k ∉ l.map Prod.fst := by
  induction l with
  | nil => simp [lookupKey]
  | cons p rest ih =>
    obtain ⟨k', v⟩ := p
    by_cases h : k' = k
    · simp [lookupKey, h]
    · simp only [lookupKey, if_neg h, List.map_cons, List.mem_cons, ih]
      constructor
      · intro hk
        exact fun hor => hor.elim (fun he => h he.symm) hk
      · intro hk hm
        exact hk (Or.inr hm)

theorem lookupKey_isSome_of_mem {k : Nat} {l : List (Nat × Nat)}
    (h : k ∈ l.map Prod.fst) : ∃ v, lookupKey k l = some v := by
  rcases hv : lookupKey k l with _ | v
  · exact absurd ((lookupKey_eq_none_iff k l).1 hv) (by simp [h])
  · exact ⟨v, rfl⟩

theorem eraseKey_cons_self {k : Nat} {v : Nat} {rest : List (Nat × Nat)} :
    eraseKey k ((k, v) :: rest) = rest := by
  simp [eraseKey]

theorem length_eraseKey {k : Nat} {l : List (Nat × Nat)}
    (h : k ∈ l.map Prod.fst) : (eraseKey k l).length + 1 = l.length := by
  induction l with
  | nil => simp at h
  | cons p rest ih =>
    obtain ⟨k', v⟩ := p
    by_cases hk : k' = k
    · simp [eraseKey, hk]
    · have : k ∈ rest.map Prod.fst := by
        simpa [Ne.symm hk] using h
      simp [eraseKey, hk, ih this]

theorem keys_eraseKey_subset {k k' : Nat} {l : List (Nat × Nat)}
    (h : k' ∈ (eraseKey k l).map Prod.fst) : k' ∈ l.map Prod.fst := by
  induction l with
  | nil => simp [eraseKey] at h
  | cons p rest ih =>
    obtain ⟨k'', v⟩ := p
    by_cases hk : k'' = k
    · simp only [eraseKey, if_pos hk] at h
      simp [h]
    · simp only [eraseKey, if_neg hk, List.map_cons, List.mem_cons] at h
      rcases h with h | h
      · simp [h]
      · simp [ih h]

theorem lookupKey_eraseKey_ne {k k' : Nat} (l : List (Nat × Nat)) (h : k' ≠ k) :
    lookupKey k' (eraseKey k l) = lookupKey k' l := by
  induction l with
  | nil => simp [eraseKey]
  | cons p rest ih =>
    obtain ⟨k'', v⟩ := p
    by_cases hk : k'' = k
    · subst hk
      have hne : ¬ k'' = k' := fun he => h he.symm
      simp [eraseKey, lookupKey, hne]
    · by_cases hk' : k'' = k'
      · subst hk'
        simp [eraseKey, hk, lookupKey]
      · simp [eraseKey, hk, lookupKey, hk', ih]

theorem lookupKey_eraseKey_self {k : Nat} {l : List (Nat × Nat)}
    (h : (l.map Prod.fst).Nodup) : lookupKey k (eraseKey k l) = none := by
  induction l with
  | nil => simp [eraseKey, lookupKey]
  | cons p rest ih =>
    obtain ⟨k', v⟩ := p
    simp only [List.map_cons, List.nodup_cons] at h
    by_cases hk : k' = k
    · subst hk
      simp only [eraseKey, if_pos rfl]
      exact (lookupKey_eq_none_iff _ _).2 h.1
    · simp [eraseKey, hk, lookupKey, ih h.2]

theorem eraseKey_append_of_notMem {k : Nat} {l1 l2 : List (Nat × Nat)}
    (h : k ∉ l1.map Prod.fst) : eraseKey k (l1 ++ l2) = l1 ++ eraseKey k l2 := by
  induction l1 with
  | nil => simp
  | cons p rest ih =>
    obtain ⟨k', v⟩ := p
    simp only [List.map_cons, List.mem_cons] at h
    push_neg at h
    simp [eraseKey, Ne.symm h.1, ih h.2]

theorem lookupKey_eraseKey_of_none {k k' : Nat} {l : List (Nat × Nat)}
    (h : lookupKey k' l = none) : lookupKey k' (eraseKey k l) = none := by
  rw [lookupKey_eq_none_iff] at h ⊢
  exact fun hm => h (keys_eraseKey_subset hm)

/-! ### minKey lemmas -/

theorem minKey_eq_none_iff (l : List (Nat × Nat)) : minKey l = none ↔ l = [] := by
  cases l with
  | nil => simp [minKey]
  | cons p rest =>
    obtain ⟨k, v⟩ := p
    simp only [minKey]
    cases minKey rest <;> simp

theorem minKey_mem {l : List (Nat × Nat)} {m : Nat} (h : minKey l = some m) :
    m ∈ l.map Prod.fst := by
  induction l generalizing m with
  | nil => simp [minKey] at h
  | cons p rest ih =>
    obtain ⟨k, v⟩ := p
    simp only [minKey] at h
    rcases hr : minKey rest with _ | m'
    · rw [hr] at h
      simp only [Option.some_inj] at h
      simp [← h]
    · rw [hr] at h
      simp only [Option.some_inj] at h
      by_cases hkm : k ≤ m'
      · have : m = k := by omega
        simp [this]
      · have : m = m' := by omega
        right
        exact this ▸ ih hr

theorem minKey_le {l : List (Nat × Nat)} {m : Nat} (h : minKey l = some m) :
    ∀ k ∈ l.map Prod.fst, m ≤ k := by
  induction l generalizing m with
  | nil => simp
  | cons p rest ih =>
    obtain ⟨k', v⟩ := p
    simp only [minKey] at h
    intro k hk
    simp only [List.map_cons, List.mem_cons] at hk
    rcases hr : minKey rest with _ | m'
    · rw [hr] at h
      simp only [Option.some_inj] at h
      rcases hk with hk | hk
      · omega
      · rw [(minKey_eq_none_iff rest).1 hr] at hk
        simp at hk
    · rw [hr] at h
      simp only [Option.some_inj] at h
      rcases hk with hk | hk
      · omega
      · have := ih hr k hk
        omega

theorem minKey_eq_some {l : List (Nat × Nat)} {m : Nat}
    (hmem : m ∈ l.map Prod.fst) (hle : ∀ k ∈ l.map Prod.fst, m ≤ k) :
    minKey l = some m := by
  rcases h : minKey l with _ | m'
  · rw [(minKey_eq_none_iff l).1 h] at hmem
    simp at hmem
  · have h1 : m' ≤ m := minKey_le h m hmem
    have h2 : m ≤ m' := hle m' (minKey_mem h)
    rw [Nat.le_antisymm h1 h2]


/-! ### modifyChan lemmas -/

theorem length_modifyChan (cid : Nat) (f : Chan → Chan) (cs : List Chan) :
    (modifyChan cid f cs).length = cs.length := by
  unfold modifyChan
  cases cs[cid]? <;> simp

theorem getElem?_modifyChan_self {cid : Nat} {f : Chan → Chan} {cs : List Chan}
    {c : Chan} (h : cs[cid]? = some c) : (modifyChan cid f cs)[cid]? = some (f c) := by
  have hlt : cid < cs.length := by
    by_contra hge
    rw [List.getElem?_eq_none (by omega)] at h
    exact Option.noConfusion h
  simp [modifyChan, h, List.getElem?_set_self hlt]

theorem getElem?_modifyChan_ne {cid j : Nat} (f : Chan → Chan) (cs : List Chan)
    (h : j ≠ cid) : (modifyChan cid f cs)[j]? = cs[j]? := by
  unfold modifyChan
  cases cs[cid]? <;> simp [List.getElem?_set_ne (Ne.symm h)]

theorem modifyChan_append_singleton (f : Chan → Chan) (l : List Chan) (c : Chan) :
    modifyChan l.length f (l ++ [c]) = l ++ [f c] := by
  have hget : (l ++ [c])[l.length]? = some c := by
    rw [List.getElem?_append_right (Nat.le_refl _)]
    simp
  simp only [modifyChan, hget]
  have : l ++ [c] = l ++ c :: [] := rfl
  rw [this, List.set_append_right _ _ (Nat.le_refl _)]
  simp

theorem set_getElem?_self {cs : List Chan} {i : Nat} {c : Chan}
    (h : cs[i]? = some c) : cs.set i c = cs := by
  apply List.ext_getElem?
  intro j
  by_cases hj : j = i
  · subst hj
    have hlt : j < cs.length := by
      by_contra hge
      rw [List.getElem?_eq_none (by omega)] at h
      exact Option.noConfusion h
    rw [List.getElem?_set_self hlt, h]
  · rw [List.getElem?_set_ne (Ne.symm hj)]

/-! ### Closed form of a run of fresh subscriptions -/

theorem lookupKey_subSeqTickets_lt {k start n : Nat} (h : k < start) :
    lookupKey k (subSeqTickets start n) = none := by
  rw [lookupKey_eq_none_iff]
  simp only [subSeqTickets, List.map_map]
  intro hm
  simp only [List.mem_map, List.mem_range, Function.comp] at hm
  obtain ⟨i, _, hi⟩ := hm
  omega

theorem lookupKey_subSeqTickets_ge {k start n : Nat} (h : start + n ≤ k) :
    lookupKey k (subSeqTickets start n) = none := by
  rw [lookupKey_eq_none_iff]
  simp only [subSeqTickets, List.map_map]
  intro hm
  simp only [List.mem_map, List.mem_range, Function.comp] at hm
  obtain ⟨i, hlt, hi⟩ := hm
  omega

theorem lookupKey_subSeqTickets_mem {k start n : Nat}
    (h1 : start ≤ k) (h2 : k < start + n) :
    lookupKey k (subSeqTickets start n) = some (k - start) := by
  induction n with
  | zero => omega
  | succ m ih =>
    rw [subSeqTickets, List.range_succ, List.map_append] at *
    rw [lookupKey_append]
    by_cases hk : k < start + m
    · rw [ih hk]
      simp
    · have hke : k = start + m := by omega
      have hnone : lookupKey k ((List.range m).map fun i => (start + i, i)) = none := by
        have := @lookupKey_subSeqTickets_ge k start m (by omega)
        rwa [subSeqTickets] at this
      rw [hnone]
      simp [lookupKey, hke]

theorem length_subSeqTickets (start n : Nat) : (subSeqTickets start n).length = n := by
  simp [subSeqTickets]

theorem keys_subSeqTickets (start n : Nat) :
    (subSeqTickets start n).map Prod.fst = (List.range n).map (start + ·) := by
  simp [subSeqTickets, List.map_map, Function.comp]

theorem nodup_keys_subSeqTickets (start n : Nat) :
    ((subSeqTickets start n).map Prod.fst).Nodup := by
  rw [keys_subSeqTickets]
  exact (List.nodup_range n).map (fun a b => by omega)

theorem minKey_subSeqTickets {start n : Nat} (h : 0 < n) :
    minKey (subSeqTickets start n) = some start := by
  apply minKey_eq_some
  · rw [keys_subSeqTickets]
    exact List.mem_map.2 ⟨0, List.mem_range.2 h, by omega⟩
  · rw [keys_subSeqTickets]
    intro k hk
    simp only [List.mem_map, List.mem_range] at hk
    obtain ⟨i, _, hi⟩ := hk
    omega

theorem subSeqState_tickets (start n : Nat) :
    (subSeqState start n).tickets = subSeqTickets start n := rfl

theorem subSeqState_chans (start n : Nat) :
    (subSeqState start n).chans = List.replicate n pendingSubChan := rfl

theorem subscribeAll_range' (start n : Nat) :
    subscribeAll (List.range' start n) MgrState.default = subSeqState start n := by
  induction n with
  | zero => rfl
  | succ m ih =>
    rw [subscribeAll, List.range'_concat, List.foldl_append]
    have ihfold : List.foldl (fun s u => (subscribe_uid u s).1)
        MgrState.default (List.range' start m) = subSeqState start m := ih
    rw [ihfold]
    simp only [List.foldl_cons, List.foldl_nil]
    have hnone : lookupKey (start + 1 * m) (subSeqState start m).tickets = none := by
      show lookupKey (start + 1 * m) (subSeqTickets start m) = none
      exact lookupKey_subSeqTickets_ge (by omega)
    rw [subscribe_uid, hnone]
    show MgrState.mk _ _ = _
    rw [subSeqState, subSeqState]
    have hchans : (List.replicate m pendingSubChan) ++
        [{ TaskTicket.pending with recvCount := 1 }] = List.replicate (m + 1) pendingSubChan := by
      rw [List.replicate_succ']
      rfl
    have hlen : (List.replicate m pendingSubChan).length = m := List.length_replicate m _
    have htickets : subSeqTickets start m ++ [(start + 1 * m, m)] = subSeqTickets start (m + 1) := by
      rw [subSeqTickets, subSeqTickets, List.range_succ, List.map_append]
      simp
    rw [hlen, hchans, htickets]


/-! ### Capacity bound for report sequences -/

theorem length_tickets_evictIfFull_of_full {s : MgrState}
    (h : MAX_TICKETS ≤ s.tickets.length) :
    (evictIfFull s).tickets.length + 1 = s.tickets.length := by
  have hne : s.tickets ≠ [] := by
    intro he
    rw [he] at h
    simp [MAX_TICKETS] at h
  rcases hm : minKey s.tickets with _ | m
  · exact absurd ((minKey_eq_none_iff _).1 hm) hne
  · have hmem := minKey_mem hm
    obtain ⟨cid, hcid⟩ := lookupKey_isSome_of_mem hmem
    rw [evictIfFull, if_pos h, hm]
    simp only [removeTicket, hcid]
    exact length_eraseKey hmem

theorem evictIfFull_of_not_full {s : MgrState}
    (h : ¬ MAX_TICKETS ≤ s.tickets.length) : evictIfFull s = s := by
  rw [evictIfFull, if_neg h]

theorem length_tickets_handle_task_le {t : Task} {s : MgrState}
    (h : s.tickets.length ≤ MAX_TICKETS) :
    (handle_task t s).tickets.length ≤ MAX_TICKETS := by
  rw [handle_task]
  have hlen1 : (evictIfFull s).tickets.length + 1 ≤ MAX_TICKETS + 1 := by
    by_cases hfull : MAX_TICKETS ≤ s.tickets.length
    · have := length_tickets_evictIfFull_of_full hfull
      omega
    · rw [evictIfFull_of_not_full hfull]
      omega
  rcases hl : lookupKey t.uid (evictIfFull s).tickets with _ | cid
  · simp only
    by_cases hfull : MAX_TICKETS ≤ s.tickets.length
    · have := length_tickets_evictIfFull_of_full hfull
      simp only [List.length_append, List.length_cons, List.length_nil]
      omega
    · rw [evictIfFull_of_not_full hfull] at *
      simp only [List.length_append, List.length_cons, List.length_nil]
      omega
  · simpa using hlen1

theorem length_tickets_handleAll_le (ts : List Minimeili.Task) :
    (handleAll ts MgrState.default).tickets.length ≤ MAX_TICKETS := by
  suffices h : ∀ s : MgrState, s.tickets.length ≤ MAX_TICKETS →
      (handleAll ts s).tickets.length ≤ MAX_TICKETS by
    exact h MgrState.default (by simp [MgrState.default, MAX_TICKETS])
  induction ts with
  | nil => exact fun s hs => hs
  | cons t rest ih =>
    intro s hs
    exact ih (handle_task t s) (length_tickets_handle_task_le hs)


/-! ### Wait semantics helpers -/

theorem waitWithin_error_closed {trace : List Chan} {e : TaskPromiseError}
    (h : waitWithin trace = some (.error e)) :
    e = .ManagerClosed ∧ ∃ c ∈ trace, c.senderAlive = false ∧ c.value = none := by
  induction trace with
  | nil => simp [waitWithin] at h
  | cons c rest ih =>
    rw [waitWithin] at h
    rcases hv : c.value with _ | t
    · rw [hv] at h
      cases ha : c.senderAlive
      · rw [ha] at h
        simp only [Bool.false_eq_true, if_false, Option.some_inj,
          Except.error.injEq] at h
        exact ⟨h.symm, c, List.mem_cons_self _ _, by simp [ha, hv]⟩
      · rw [ha] at h
        simp only [if_true] at h
        obtain ⟨he, c', hc', hp⟩ := ih h
        exact ⟨he, c', List.mem_cons_of_mem _ hc', hp⟩
    · rw [hv] at h
      simp at h

/-- C7: `wait_with_timeout(dur)` returns the task exactly when `wait`
resolves within the window; it returns `Timeout` carrying
`dur.as_millis()` exactly when the window ends with `wait` still
suspended; it returns `ManagerClosed` exactly when `wait` hit a closed
(torn-down) channel within the window — and there is no other outcome. -/
theorem wait_with_timeout_outcomes (trace : List Chan) (durMs : Nat) :
    (∀ t : Task, wait_with_timeout trace durMs = .ok t ↔
      waitWithin trace = some (.ok t)) ∧
    (wait_with_timeout trace durMs = .error .ManagerClosed ↔
      waitWithin trace = some (.error .ManagerClosed)) ∧
    (wait_with_timeout trace durMs = .error .ManagerClosed →
      ∃ c ∈ trace, c.senderAlive = false ∧ c.value = none) ∧
    (wait_with_timeout trace durMs = .error (.Timeout durMs) ↔
      waitWithin trace = none) ∧
    ((∃ t, wait_with_timeout trace durMs = .ok t) ∨
      wait_with_timeout trace durMs = .error .ManagerClosed ∨
      wait_with_timeout trace durMs = .error (.Timeout durMs)) := by
  rcases hw : waitWithin trace with _ | r
  · refine ⟨?_, ?_, ?_, ?_, ?_⟩ <;>
      simp [wait_with_timeout, hw]
  · rcases r with e | t
    · obtain ⟨he, c, hc, hp⟩ := waitWithin_error_closed hw
      subst he
      refine ⟨?_, ?_, ?_, ?_, ?_⟩ <;>
        simp [wait_with_timeout, hw]
      exact ⟨c, hc, hp⟩
    · refine ⟨?_, ?_, ?_, ?_, ?_⟩ <;>
        simp [wait_with_timeout, hw]

/-- C10: the `AsTaskUid` conversions: identity on `u64`, the `uid` field on
`&Task` and `&TaskRef`; hence `subscribe_for_task` with a `Task` or
`TaskRef` subscribes to that record's uid. -/
theorem as_task_uid_identity :
    (∀ u : Nat, AsTaskUid.as_task_uid u = u) ∧
    (∀ t : Task, AsTaskUid.as_task_uid t = t.uid) ∧
    (∀ r : TaskRef, AsTaskUid.as_task_uid r = r.uid) ∧
    (∀ (u : Nat) (s : MgrState), subscribe_for_task u s = subscribe_uid u s) ∧
    (∀ (t : Task) (s : MgrState), subscribe_for_task t s = subscribe_uid t.uid s) ∧
    (∀ (r : TaskRef) (s : MgrState), subscribe_for_task r s = subscribe_uid r.uid s) :=
  ⟨fun _ => rfl, fun _ => rfl, fun _ => rfl,
    fun _ _ => rfl, fun _ _ => rfl, fun _ _ => rfl⟩

/-! ### Resolution of attached subscribers -/

theorem handle_task_occupied_wait {s : MgrState} {t : Task} {cid : Nat} {c : Chan}
    (h1 : lookupKey t.uid (evictIfFull s).tickets = some cid)
    (h2 : (evictIfFull s).chans[cid]? = some c) (h4 : 0 < c.recvCount) :
    waitNow (handle_task t s) ⟨cid⟩ = .resolved t := by
  rw [handle_task]
  simp only [h1]
  rw [waitNow]
  simp only
  rw [getElem?_modifyChan_self h2]
  rw [TaskTicket.complete, if_pos h4]

/-- C6: every subscriber attached to the `Pending` ticket for `t.uid` before
the resolving report observes exactly the task `t` passed to that report
call. `p` ranges over all promises on the ticket's channel; a promise is
consumed by `wait`, so each subscriber observes the resolution once. The
hypotheses say the ticket survives the report's eviction step, is still
`Pending`, and has at least one attached receiver. -/
theorem subscribers_resolved_with_reported_task {s : MgrState} {t : Task}
    {cid : Nat} {c : Chan}
    (h1 : lookupKey t.uid (evictIfFull s).tickets = some cid)
    (h2 : (evictIfFull s).chans[cid]? = some c)
    (h3 : c.value = none) (h4 : 0 < c.recvCount)
    (p : TaskPromise) (hp : p.chanId = cid) :
    waitNow (handle_task t s) p = .resolved t := by
  cases p
  cases hp
  exact handle_task_occupied_wait h1 h2 h4

/-- Witness for C6 at a concrete input: subscribe to uid 5 on the empty
registry, then report; the subscriber's promise resolves with the
reported task. -/
theorem subscribers_resolved_with_reported_task_witness :
    waitNow (handle_task (sampleTask 5) (subscribe_uid 5 MgrState.default).1)
      (subscribe_uid 5 MgrState.default).2 = .resolved (sampleTask 5) := by
  apply subscribers_resolved_with_reported_task
    (c := pendingSubChan) <;> first
    | rfl
    | decide

/-- C8: `handle_task` performs no terminal-status check: a task whose status
is not terminal (`has_stopped = false`) is delivered to waiting subscribers
as the final answer all the same. -/
theorem handle_task_ignores_status {s : MgrState} {t : Task}
    {cid : Nat} {c : Chan}
    (hstatus : t.status.has_stopped = false)
    (h1 : lookupKey t.uid (evictIfFull s).tickets = some cid)
    (h2 : (evictIfFull s).chans[cid]? = some c)
    (h3 : c.value = none) (h4 : 0 < c.recvCount)
    (p : TaskPromise) (hp : p.chanId = cid) :
    waitNow (handle_task t s) p = .resolved t := by
  cases p
  cases hp
  exact handle_task_occupied_wait h1 h2 h4

/-- Witness for C8 at a concrete input: an `Enqueued` (non-terminal) task is
delivered to the waiting subscriber. -/
theorem handle_task_ignores_status_witness :
    waitNow (handle_task (enqueuedTask 5) (subscribe_uid 5 MgrState.default).1)
      (subscribe_uid 5 MgrState.default).2 = .resolved (enqueuedTask 5) := by
  apply handle_task_ignores_status
    (c := pendingSubChan) <;> first
    | rfl
    | decide


/-! ### Late subscription -/

theorem lookupKey_evictIfFull_none {s : MgrState} {k : Nat}
    (h : lookupKey k s.tickets = none) :
    lookupKey k (evictIfFull s).tickets = none := by
  rw [evictIfFull]
  by_cases hfull : MAX_TICKETS ≤ s.tickets.length
  · rw [if_pos hfull]
    rcases hm : minKey s.tickets with _ | m
    · exact h
    · simp only [removeTicket]
      rcases hl : lookupKey m s.tickets with _ | cid
      · simp only [hl]
        exact h
      · simp only [hl]
        exact lookupKey_eraseKey_of_none h
  · rw [if_neg hfull]
    exact h

/-- C5: late subscription. If `t.uid` is absent and `handle_task t` runs
(storing a `Completed` ticket), then a subsequent `subscribe_for_task`
returns a promise that is already resolved: `wait` yields the stored task
immediately, with no further report. -/
theorem late_subscription_resolves_immediately {s : MgrState} {t : Task}
    (habs : lookupKey t.uid s.tickets = none) :
    waitNow (subscribe_uid t.uid (handle_task t s)).1
      (subscribe_uid t.uid (handle_task t s)).2 = .resolved t := by
  have habs1 : lookupKey t.uid (evictIfFull s).tickets = none :=
    lookupKey_evictIfFull_none habs
  rw [handle_task]
  simp only [habs1]
  rw [subscribe_uid]
  simp only [lookupKey_append, habs1, Option.orElse]
  simp only [lookupKey, if_pos rfl, if_true]
  rw [waitNow]
  simp only [modifyChan_append_singleton]
  rw [List.getElem?_append_right (Nat.le_refl _)]
  simp [TaskTicket.completed]

/-- Witness for C5 at a concrete input: report task 9 on the empty registry,
then subscribe; the promise is already resolved with the stored task. -/
theorem late_subscription_resolves_immediately_witness :
    waitNow (subscribe_uid 9 (handle_task (sampleTask 9) MgrState.default)).1
      (subscribe_uid 9 (handle_task (sampleTask 9) MgrState.default)).2 =
      .resolved (sampleTask 9) :=
  late_subscription_resolves_immediately (s := MgrState.default) (t := sampleTask 9) (by decide)

/-! ### Duplicate report -/

/-- C4 (amended): a duplicate report for an id whose ticket is already
`Completed` never panics (`handle_task` is total), and when the ticket's
channel has no live receiver — and the map is below capacity, so no
eviction interferes — it is a complete no-op: the `watch` send fails and
the stored task, map and channels are all left exactly as they were. (The
counterexample shows the stored value is NOT left as-is when a live
receiver exists.) -/
theorem duplicate_report_no_receiver_noop {s : MgrState} {t : Task}
    {cid : Nat} {c : Chan} {a : Task}
    (hlen : s.tickets.length < MAX_TICKETS)
    (h1 : lookupKey t.uid s.tickets = some cid)
    (h2 : s.chans[cid]? = some c)
    (hval : c.value = some a) (hrecv : c.recvCount = 0) :
    handle_task t s = s := by
  have hev : evictIfFull s = s := evictIfFull_of_not_full (by omega)
  rw [handle_task]
  simp only [hev, h1]
  have hcomplete : TaskTicket.complete c t = c := by
    rw [TaskTicket.complete, if_neg (by omega)]
  rw [modifyChan]
  simp only [h2, hcomplete]
  rw [set_getElem?_self h2]

/-- Witness for C4's amended theorem at a concrete input: report task 7,
then report a different task with the same uid; with no receiver attached,
the registry is completely unchanged. -/
theorem duplicate_report_no_receiver_noop_witness :
    handle_task (sampleTaskB 7) (handle_task (sampleTask 7) MgrState.default) =
      handle_task (sampleTask 7) MgrState.default := by
  exact @duplicate_report_no_receiver_noop
    (handle_task (sampleTask 7) MgrState.default) (sampleTaskB 7) 0
    (TaskTicket.completed (sampleTask 7)) (sampleTask 7)
    (by decide) (by decide) (by decide) (by decide) (by decide)

/-- Counterexample to C4 as stated: with a live receiver attached to the
`Completed` ticket, a duplicate report DOES overwrite the stored task. The
first conjuncts pin down the claim's scenario (ticket for uid 7 already
`Completed` with the first task); the last show the promise attached
before the duplicate report and a fresh subscriber both observe the second
task, not the stored first one. -/
theorem duplicate_report_overwrites_stored_task :
    (lookupKey 7 (handle_task (sampleTask 7) MgrState.default).tickets = some 0 ∧
      (handle_task (sampleTask 7) MgrState.default).chans[0]? =
        some (TaskTicket.completed (sampleTask 7))) ∧
    sampleTaskB 7 ≠ sampleTask 7 ∧
    waitNow
      (handle_task (sampleTaskB 7)
        (subscribe_uid 7 (handle_task (sampleTask 7) MgrState.default)).1)
      (subscribe_uid 7 (handle_task (sampleTask 7) MgrState.default)).2 =
      .resolved (sampleTaskB 7) ∧
    waitNow
      (subscribe_uid 7 (handle_task (sampleTaskB 7)
        (subscribe_uid 7 (handle_task (sampleTask 7) MgrState.default)).1)).1
      (subscribe_uid 7 (handle_task (sampleTaskB 7)
        (subscribe_uid 7 (handle_task (sampleTask 7) MgrState.default)).1)).2 =
      .resolved (sampleTaskB 7) := by
  refine ⟨⟨?_, ?_⟩, ?_, ?_, ?_⟩ <;> set_option maxRecDepth 30000 in decide

/-! ### Capacity: only report is bounded -/

/-- C1 (amended): a sequence of `report` calls alone never pushes the map
beyond `MAX_TICKETS = 512` entries (the counterexample shows `subscribe`
is not subject to the eviction rule and can exceed the bound). -/
theorem report_only_sequences_bounded (ts : List Minimeili.Task) :
    (handleAll ts MgrState.default).tickets.length ≤ MAX_TICKETS :=
  length_tickets_handleAll_le ts

/-- Counterexample to C1 as stated: 513 subscriptions to distinct absent
ids insert 513 entries — `subscribe_for_task` performs no eviction, so the
map exceeds 512 live entries. -/
theorem subscribe_sequence_exceeds_capacity :
    MAX_TICKETS <
      (subscribeAll (List.range' 0 513) MgrState.default).tickets.length := by
  rw [subscribeAll_range', subSeqState_tickets, length_subSeqTickets]
  norm_num [MAX_TICKETS]


/-! ### Eviction behaviour at capacity -/

theorem evictIfFull_tickets_full {s : MgrState} {m : Nat}
    (hfull : MAX_TICKETS ≤ s.tickets.length) (hmin : minKey s.tickets = some m) :
    (evictIfFull s).tickets = eraseKey m s.tickets := by
  obtain ⟨vm, hvm⟩ := lookupKey_isSome_of_mem (minKey_mem hmin)
  rw [evictIfFull, if_pos hfull, hmin]
  simp only [removeTicket, hvm]

/-- C3: when report evicts to make room (the map holds `MAX_TICKETS` or
more entries), the entry removed by the eviction step of `handle_task` is
exactly the one whose key is the smallest id stored in the map — a
deterministic minimum-id policy (no use/recency data exists to drive an
LRU/LFU choice): the minimum is a stored key, it is below every stored
key, after eviction it is gone, and every other key's binding is
untouched. -/
theorem eviction_removes_smallest_key {s : MgrState} {m : Nat}
    (hfull : MAX_TICKETS ≤ s.tickets.length)
    (hmin : minKey s.tickets = some m)
    (hnodup : (s.tickets.map Prod.fst).Nodup) :
    (evictIfFull s).tickets = eraseKey m s.tickets ∧
    m ∈ s.tickets.map Prod.fst ∧
    (∀ k ∈ s.tickets.map Prod.fst, m ≤ k) ∧
    lookupKey m (evictIfFull s).tickets = none ∧
    (∀ k, k ≠ m → lookupKey k (evictIfFull s).tickets = lookupKey k s.tickets) := by
  have hmem := minKey_mem hmin
  have hev : (evictIfFull s).tickets = eraseKey m s.tickets :=
    evictIfFull_tickets_full hfull hmin
  refine ⟨hev, hmem, minKey_le hmin, ?_, ?_⟩
  · rw [hev]
    exact lookupKey_eraseKey_self hnodup
  · intro k hk
    rw [hev]
    exact lookupKey_eraseKey_ne _ hk

/-- Witness for C3 at a concrete input: a full registry with keys
`0, …, 511` (reached by 512 subscriptions); eviction removes exactly the
entry with key 0. -/
theorem eviction_removes_smallest_key_witness :
    (evictIfFull (subSeqState 0 512)).tickets =
      eraseKey 0 (subSeqState 0 512).tickets ∧
    lookupKey 0 (evictIfFull (subSeqState 0 512)).tickets = none ∧
    lookupKey 7 (evictIfFull (subSeqState 0 512)).tickets =
      lookupKey 7 (subSeqState 0 512).tickets := by
  have h := eviction_removes_smallest_key (s := subSeqState 0 512) (m := 0)
    (by rw [subSeqState_tickets, length_subSeqTickets]; decide)
    (by rw [subSeqState_tickets]; exact minKey_subSeqTickets (by norm_num))
    (by rw [subSeqState_tickets]; exact nodup_keys_subSeqTickets 0 512)
  exact ⟨h.1, h.2.2.2.1, h.2.2.2.2 7 (by norm_num)⟩

/-- C2 (amended): during report, eviction happens whenever the map holds at
least `MAX_TICKETS` entries, regardless of whether the reported id is
already a key: at capacity with `t.uid` present and distinct from the
minimum key, the minimum-key entry is removed all the same, and the
reported id's entry is then updated in place. -/
theorem report_at_capacity_evicts_even_when_present {s : MgrState} {t : Task}
    {cid m : Nat}
    (hfull : MAX_TICKETS ≤ s.tickets.length)
    (hpresent : lookupKey t.uid s.tickets = some cid)
    (hmin : minKey s.tickets = some m)
    (hne : m ≠ t.uid)
    (hnodup : (s.tickets.map Prod.fst).Nodup) :
    (∃ v, lookupKey m s.tickets = some v) ∧
    lookupKey m (handle_task t s).tickets = none ∧
    lookupKey t.uid (handle_task t s).tickets = some cid := by
  have hmem := minKey_mem hmin
  obtain ⟨vm, hvm⟩ := lookupKey_isSome_of_mem hmem
  have hev : (evictIfFull s).tickets = eraseKey m s.tickets :=
    evictIfFull_tickets_full hfull hmin
  have hlook1 : lookupKey t.uid (evictIfFull s).tickets = some cid := by
    rw [hev, lookupKey_eraseKey_ne _ (Ne.symm hne)]
    exact hpresent
  have htickets : (handle_task t s).tickets = (evictIfFull s).tickets := by
    rw [handle_task]
    simp only [hlook1]
  refine ⟨⟨vm, hvm⟩, ?_, ?_⟩
  · rw [htickets, hev]
    exact lookupKey_eraseKey_self hnodup
  · rw [htickets]
    exact hlook1

/-- Witness for C2's amended theorem at a concrete input: the full registry
with keys `0, …, 511`; reporting uid 511 (present, not the minimum) evicts
key 0 and keeps 511 bound. -/
theorem report_at_capacity_evicts_even_when_present_witness :
    (∃ v, lookupKey 0 (subSeqState 0 512).tickets = some v) ∧
    lookupKey 0 (handle_task (sampleTask 511) (subSeqState 0 512)).tickets = none ∧
    lookupKey 511 (handle_task (sampleTask 511) (subSeqState 0 512)).tickets =
      some 511 := by
  have h := report_at_capacity_evicts_even_when_present
    (s := subSeqState 0 512) (t := sampleTask 511) (m := 0)
    (by rw [subSeqState_tickets, length_subSeqTickets]; decide)
    (by rw [subSeqState_tickets]
        exact lookupKey_subSeqTickets_mem (by decide) (by decide))
    (by rw [subSeqState_tickets]; exact minKey_subSeqTickets (by norm_num))
    (by decide)
    (by rw [subSeqState_tickets]; exact nodup_keys_subSeqTickets 0 512)
  exact h

/-- Counterexample to C2 as stated: at capacity with the reported id 511
already a key, report still removes the (distinct) minimum-key entry 0
before updating — built from 512 actual subscribe calls followed by one
report call. -/
theorem report_at_capacity_with_present_id_removes_entry :
    (subscribeAll (List.range' 0 512) MgrState.default).tickets.length =
      MAX_TICKETS ∧
    lookupKey 511
      (subscribeAll (List.range' 0 512) MgrState.default).tickets = some 511 ∧
    lookupKey 0
      (subscribeAll (List.range' 0 512) MgrState.default).tickets = some 0 ∧
    lookupKey 0
      (handle_task (sampleTask 511)
        (subscribeAll (List.range' 0 512) MgrState.default)).tickets = none := by
  rw [subscribeAll_range']
  have hmem511 : lookupKey 511 (subSeqState 0 512).tickets = some 511 := by
    rw [subSeqState_tickets]
    exact lookupKey_subSeqTickets_mem (by norm_num) (by norm_num)
  have hmem0 : lookupKey 0 (subSeqState 0 512).tickets = some 0 := by
    rw [subSeqState_tickets]
    exact lookupKey_subSeqTickets_mem (by norm_num) (by norm_num)
  have hev : (evictIfFull (subSeqState 0 512)).tickets =
      eraseKey 0 (subSeqState 0 512).tickets :=
    evictIfFull_tickets_full
      (by rw [subSeqState_tickets, length_subSeqTickets]; decide)
      (by rw [subSeqState_tickets]; exact minKey_subSeqTickets (by norm_num))
  have hlook1 : lookupKey 511 (evictIfFull (subSeqState 0 512)).tickets =
      some 511 := by
    rw [hev, lookupKey_eraseKey_ne _ (by norm_num)]
    exact hmem511
  have htickets : (handle_task (sampleTask 511) (subSeqState 0 512)).tickets =
      (evictIfFull (subSeqState 0 512)).tickets := by
    rw [handle_task]
    simp only [show (sampleTask 511).uid = 511 from rfl, hlook1]
  refine ⟨by rw [subSeqState_tickets, length_subSeqTickets]; rfl,
    hmem511, hmem0, ?_⟩
  rw [htickets, hev, subSeqState_tickets]
  exact lookupKey_eraseKey_self (nodup_keys_subSeqTickets 0 512)


/-! ### Reporting the minimum key of a full map -/

/-- C9 (amended): when the map is at capacity and the reported task's own id
is the smallest stored key, `handle_task` evicts that very ticket (dropping
its channel's sender) and then inserts a fresh `Completed` ticket under the
same id on a new channel; every promise attached to the evicted ticket
while it was still *Pending* gets the `ManagerClosed` error from `wait`
instead of the reported task. (The counterexample shows that a promise
attached to an evicted ticket that was already `Completed` instead
resolves with the previously stored task, so the claim's "every promise"
must be restricted to pending tickets.) -/
theorem evicting_reported_min_strands_pending_promises {s : MgrState}
    {t : Task} {cid : Nat} {c : Chan}
    (hfull : MAX_TICKETS ≤ s.tickets.length)
    (hmin : minKey s.tickets = some t.uid)
    (hcid : lookupKey t.uid s.tickets = some cid)
    (hc : s.chans[cid]? = some c)
    (hpending : c.value = none)
    (hnodup : (s.tickets.map Prod.fst).Nodup) :
    waitNow (handle_task t s) ⟨cid⟩ = .closed ∧
    ∃ cid', cid' ≠ cid ∧
      lookupKey t.uid (handle_task t s).tickets = some cid' ∧
      (handle_task t s).chans[cid']? = some (TaskTicket.completed t) := by
  have hcidlt : cid < s.chans.length := by
    by_contra hge
    rw [List.getElem?_eq_none (by omega)] at hc
    exact Option.noConfusion hc
  have hev : evictIfFull s =
      ⟨modifyChan cid (fun c => { c with senderAlive := false }) s.chans,
        eraseKey t.uid s.tickets⟩ := by
    rw [evictIfFull, if_pos hfull, hmin]
    simp only [removeTicket, hcid]
  have habs : lookupKey t.uid (eraseKey t.uid s.tickets) = none :=
    lookupKey_eraseKey_self hnodup
  have hlen1 : (modifyChan cid (fun c => { c with senderAlive := false })
      s.chans).length = s.chans.length := length_modifyChan _ _ _
  have hht : handle_task t s =
      ⟨modifyChan cid (fun c => { c with senderAlive := false }) s.chans ++
          [TaskTicket.completed t],
        eraseKey t.uid s.tickets ++ [(t.uid, s.chans.length)]⟩ := by
    rw [handle_task, hev]
    simp only [habs, hlen1]
  refine ⟨?_, s.chans.length, by omega, ?_, ?_⟩
  · rw [hht, waitNow]
    simp only
    rw [List.getElem?_append_left (by rw [hlen1]; exact hcidlt)]
    rw [getElem?_modifyChan_self hc]
    simp [hpending]
  · rw [hht]
    simp only
    rw [lookupKey_append, habs]
    simp [lookupKey]
  · rw [hht]
    simp only
    rw [List.getElem?_append_right (by rw [hlen1])]
    rw [hlen1]
    simp

/-- Witness for C9's amended theorem at a concrete input: a full registry
with pending tickets for uids `0, …, 511`, each with one subscriber;
reporting uid 0 (the minimum) evicts its own pending ticket, so the
subscriber's promise (channel 0) is closed, while a fresh `Completed`
ticket appears on a new channel. -/
theorem evicting_reported_min_strands_pending_promises_witness :
    waitNow (handle_task (sampleTask 0) (subSeqState 0 512)) ⟨0⟩ = .closed ∧
    ∃ cid', cid' ≠ 0 ∧
      lookupKey (sampleTask 0).uid
        (handle_task (sampleTask 0) (subSeqState 0 512)).tickets = some cid' ∧
      (handle_task (sampleTask 0) (subSeqState 0 512)).chans[cid']? =
        some (TaskTicket.completed (sampleTask 0)) := by
  exact evicting_reported_min_strands_pending_promises
    (c := pendingSubChan)
    (by rw [subSeqState_tickets, length_subSeqTickets]; decide)
    (by rw [subSeqState_tickets]; exact minKey_subSeqTickets (by norm_num))
    (by rw [subSeqState_tickets]
        exact lookupKey_subSeqTickets_mem (by decide) (by decide))
    (by rw [subSeqState_chans, List.getElem?_replicate, if_pos (by norm_num)])
    (by rfl)
    (by rw [subSeqState_tickets]; exact nodup_keys_subSeqTickets 0 512)


/-! ### A promise on an evicted Completed ticket -/

theorem mk_tickets (cs : List Chan) (ts : List (Nat × Nat)) :
    (MgrState.mk cs ts).tickets = ts := rfl

theorem mk_chans (cs : List Chan) (ts : List (Nat × Nat)) :
    (MgrState.mk cs ts).chans = cs := rfl

theorem modifyChan_append_of_length {i : Nat} (f : Chan → Chan)
    (l : List Chan) (c : Chan) (hi : i = l.length) :
    modifyChan i f (l ++ [c]) = l ++ [f c] := by
  subst hi
  exact modifyChan_append_singleton f l c

theorem lookupKey_zero_c9 :
    lookupKey 0 (subSeqTickets 1 511 ++ [(0, 511)]) = some 511 := by
  rw [lookupKey_append, lookupKey_subSeqTickets_lt (by norm_num)]
  simp [lookupKey]

theorem zero_notMem_keys_c9 : (0 : Nat) ∉ (subSeqTickets 1 511).map Prod.fst := by
  rw [keys_subSeqTickets]
  intro hm
  simp only [List.mem_map, List.mem_range] at hm
  obtain ⟨i, _, hi⟩ := hm
  omega

theorem minKey_c9 : minKey (subSeqTickets 1 511 ++ [(0, 511)]) = some 0 := by
  apply minKey_eq_some
  · simp
  · intro k _
    exact Nat.zero_le k

theorem c9s1_eq : c9s1 =
    ⟨List.replicate 511 pendingSubChan ++ [TaskTicket.completed (sampleTask 0)],
      subSeqTickets 1 511 ++ [(0, 511)]⟩ := by
  have h0 : c9s0 = subSeqState 1 511 := subscribeAll_range' 1 511
  have habs0 : lookupKey (sampleTask 0).uid (subSeqState 1 511).tickets = none := by
    rw [subSeqState_tickets]
    exact lookupKey_subSeqTickets_lt (by decide)
  have hnotfull : evictIfFull (subSeqState 1 511) = subSeqState 1 511 :=
    evictIfFull_of_not_full
      (by rw [subSeqState_tickets, length_subSeqTickets]; decide)
  show handle_task (sampleTask 0) c9s0 = _
  rw [h0, handle_task, hnotfull]
  simp only [habs0]
  rw [subSeqState_chans, subSeqState_tickets, List.length_replicate]
  simp only [show (sampleTask 0).uid = 0 from rfl]

theorem subscribe_uid_occupied {s : MgrState} {u cid : Nat}
    (h : lookupKey u s.tickets = some cid) :
    subscribe_uid u s =
      (MgrState.mk
        (modifyChan cid (fun c => { c with recvCount := c.recvCount + 1 }) s.chans)
        s.tickets,
        ⟨cid⟩) := by
  rw [subscribe_uid, h]

theorem c9pair_eq : subscribe_uid 0 c9s1 =
    (⟨List.replicate 511 pendingSubChan ++ [⟨some (sampleTask 0), true, 1⟩],
      subSeqTickets 1 511 ++ [(0, 511)]⟩, ⟨511⟩) := by
  rw [c9s1_eq]
  rw [subscribe_uid_occupied
    (s := ⟨List.replicate 511 pendingSubChan ++ [TaskTicket.completed (sampleTask 0)],
      subSeqTickets 1 511 ++ [(0, 511)]⟩)
    lookupKey_zero_c9]
  simp only [mk_tickets, mk_chans]
  have hlen : (511 : Nat) = (List.replicate 511 pendingSubChan).length := by
    rw [List.length_replicate]
  rw [modifyChan_append_of_length _ _ _ hlen]
  rfl

theorem c9s3_eq : handle_task (sampleTaskB 0)
    (⟨List.replicate 511 pendingSubChan ++ [⟨some (sampleTask 0), true, 1⟩],
      subSeqTickets 1 511 ++ [(0, 511)]⟩ : MgrState) =
    ⟨(List.replicate 511 pendingSubChan ++ [⟨some (sampleTask 0), false, 1⟩]) ++
        [TaskTicket.completed (sampleTaskB 0)],
      subSeqTickets 1 511 ++
        [(0, (List.replicate 511 pendingSubChan ++
          [(⟨some (sampleTask 0), false, 1⟩ : Chan)]).length)]⟩ := by
  rw [handle_task]
  simp only [mk_tickets, mk_chans, show (sampleTaskB 0).uid = 0 from rfl]
  have hfull2 : MAX_TICKETS ≤ (subSeqTickets 1 511 ++ [(0, 511)]).length := by
    rw [List.length_append, length_subSeqTickets]
    decide
  have herase : eraseKey 0 (subSeqTickets 1 511 ++ [(0, 511)]) =
      subSeqTickets 1 511 := by
    rw [eraseKey_append_of_notMem zero_notMem_keys_c9, eraseKey_cons_self,
      List.append_nil]
  have hev : evictIfFull
      ⟨List.replicate 511 pendingSubChan ++ [⟨some (sampleTask 0), true, 1⟩],
        subSeqTickets 1 511 ++ [(0, 511)]⟩ =
      ⟨List.replicate 511 pendingSubChan ++ [⟨some (sampleTask 0), false, 1⟩],
        subSeqTickets 1 511⟩ := by
    rw [evictIfFull]
    rw [if_pos (by rw [mk_tickets]; exact hfull2)]
    rw [mk_tickets, minKey_c9]
    simp only [removeTicket, mk_tickets, mk_chans, lookupKey_zero_c9, herase]
    have hlen : (511 : Nat) = (List.replicate 511 pendingSubChan).length := by
      rw [List.length_replicate]
    rw [modifyChan_append_of_length _ _ _ hlen]
  rw [hev]
  simp only [mk_tickets, mk_chans]
  have habs : lookupKey 0 (subSeqTickets 1 511) = none :=
    lookupKey_subSeqTickets_lt (by norm_num)
  simp only [habs]

/-- Counterexample to C9 as stated: a promise obtained from an evicted
ticket that was `Completed` (not `Pending`) does NOT get `ManagerClosed`:
`wait_for` sees the still-stored old task. Trace: subscribe uids `1..511`
(the state `c9s1` also reports uid 0, storing a `Completed` ticket and
filling the map to 512 entries), then subscribe uid 0 — obtaining a
promise on the `Completed` ticket — and report uid 0 again. This is the
claim's scenario: the map is at capacity and the reported id 0 is the
smallest stored key, so `handle_task` evicts uid 0's own ticket and
re-inserts a fresh one. Yet `wait` on the promise yields the first task,
not `ManagerClosed` and not the newly reported one. -/
theorem promise_from_evicted_completed_ticket_resolves :
    (subscribe_uid 0 c9s1).1.tickets.length = MAX_TICKETS ∧
    minKey (subscribe_uid 0 c9s1).1.tickets = some 0 ∧
    waitNow (handle_task (sampleTaskB 0) (subscribe_uid 0 c9s1).1)
      (subscribe_uid 0 c9s1).2 = .resolved (sampleTask 0) ∧
    sampleTask 0 ≠ sampleTaskB 0 ∧
    WaitResult.resolved (sampleTask 0) ≠ .closed := by
  rw [c9pair_eq]
  dsimp only
  refine ⟨?_, ?_, ?_, by decide, by simp⟩
  · rw [List.length_append, length_subSeqTickets]
    decide
  · exact minKey_c9
  · rw [c9s3_eq, waitNow]
    simp only [mk_chans]
    have hlt : (511 : Nat) <
        (List.replicate 511 pendingSubChan ++
          [(⟨some (sampleTask 0), false, 1⟩ : Chan)]).length := by
      simp only [List.length_append, List.length_replicate, List.length_cons,
        List.length_nil]
      omega
    rw [List.getElem?_append_left hlt]
    have hge : (List.replicate 511 pendingSubChan).length ≤ 511 := by
      rw [List.length_replicate]
    rw [List.getElem?_append_right hge]
    rw [List.length_replicate]
    simp

end Minimeili
